import Mathlib

/-!
Verification of the natural-language specification of janus, a UDP-to-HTTP
forwarding gateway, against a shallow embedding of its Go source.

Conventions used throughout:
* Go `time.Duration` (an `int64` count of nanoseconds) is modelled as `ℤ`;
  where the source can overflow an `int64` (the jitter addition inside
  `backoff`), the two's-complement wrap is modelled explicitly via `wrap64`.
* Go `float64` configuration fields are modelled as `ℚ`; only sign and
  ordering facts about them are relied on, which binary floating point
  preserves exactly for the values involved.
* Go strings are modelled as `List Char`.
-/

namespace Janus

/-- The rational number 3/2, written in a kernel-computable normal form
(the `yaml` and codf defaults use the float literal `1.5`). -/
def threeHalves : ℚ := Rat.mk' 3 2 (by decide) (by decide)

/-- The `backoff` parameter record of `cmd/janus-server/backoff.go`
(fields `Interval Factor Grow Min Max MaxExp ExpM ExpScale`).
Durations are in nanoseconds. -/
structure Backoff where
  interval : ℤ
  factor : ℚ
  grow : ℤ
  min : ℤ
  max : ℤ
  maxExp : ℤ
  expM : ℚ
  expScale : ℚ
  deriving DecidableEq

/-- `DefaultBackoff = backoff{15 * time.Second, 1, time.Second, 7 * time.Second,
3 * time.Minute, 20, 1, 1.5}`. -/
def DefaultBackoff : Backoff :=
  { interval := 15 * 1000000000
    factor := 1
    grow := 1000000000
    min := 7 * 1000000000
    max := 180 * 1000000000
    maxExp := 20
    expM := 1
    expScale := threeHalves }

/-- `(*backoff).Check` from the codf config variant (`backoff.Check` in the
source): the check passes (`true`, Go returns `nil`) unless `Factor < 1`,
`Grow < 0`, `Min < 0`, `Max < Min`, `MaxExp ≤ 0`, `MaxExp > 60`, `ExpM < 0`
or `ExpScale < 0`. -/
def Backoff.check (b : Backoff) : Bool :=
  !(b.factor < 1 || b.grow < 0 || b.min < 0 || b.max < b.min ||
    b.maxExp ≤ 0 || 60 < b.maxExp || b.expM < 0 || b.expScale < 0)

/-- The effective exponent cap of `randfactor`:
`maxex := b.MaxExp; if maxex <= 0 || maxex > 60 { maxex = 60 }`. -/
def Backoff.maxexEff (b : Backoff) : ℤ :=
  if b.maxExp ≤ 0 ∨ 60 < b.maxExp then 60 else b.maxExp

/-- The sampling bound `max` handed to `rand.Int(rand.Reader, max)` inside
`randfactor` (reached only when `retry ≥ 1`; `rand.Int` draws uniformly from
`[0, max)`).  The Go source reads

```
max := big.NewInt(128 + 1<<uint(retry))
max = max.Add(max.Lsh(max, uint(retry-1)), big.NewInt(128))
```

`big.Int` methods store their result in the receiver, so `max.Lsh(max, k)`
first overwrites `max` with `M << k`, and the subsequent `Add` reads that
overwritten value: the final bound is `(M << (retry-1)) + 128`, not
`M + (M << (retry-1)) + 128`.  The successive states of the `max` variable
are spelled out below. -/
def randfactorMax (b : Backoff) (retry : ℤ) : ℤ :=
  let maxex := b.maxexEff
  let retry := if maxex < retry then maxex else retry
  -- max := big.NewInt(128 + 1<<uint(retry))
  let max0 : ℤ := 128 + 2 ^ retry.toNat
  -- max.Lsh(max, uint(retry-1)) : receiver now holds M << (retry-1)
  let max1 : ℤ := max0 * 2 ^ (retry - 1).toNat
  -- max.Add(<receiver>, big.NewInt(128))
  max1 + 128

/-- The sampling-bound recipe exactly as the specification words it
(`M = 128 + 2^retry`, then `M = M + (M << (eff_retry-1)) + 128`), for
comparison with `randfactorMax`, which is translated from the source. -/
def randfactorMaxSpec (b : Backoff) (retry : ℤ) : ℤ :=
  let maxex := b.maxexEff
  let retry := if maxex < retry then maxex else retry
  let m : ℤ := 128 + 2 ^ retry.toNat
  m + m * 2 ^ (retry - 1).toNat + 128

/-- Truncation of a rational towards zero, the behaviour of Go's
`time.Duration(f)` conversion from `float64` for in-range values. -/
def truncQ (q : ℚ) : ℤ :=
  if 0 ≤ q then ⌊q⌋ else ⌈q⌉

/-- Two's-complement wrap of an integer into the `int64` range
`[-2^63, 2^63)`: the behaviour of Go's signed integer addition on overflow
(overflow of `+` on Go's signed integers is defined to wrap around). -/
def wrap64 (z : ℤ) : ℤ := (z + 2 ^ 63) % 2 ^ 64 - 2 ^ 63

/-- `(*backoff).backoff(retry, _ int) time.Duration`.  The value returned by
`b.randfactor(retry)` is passed in as the oracle `rf` (it depends on a draw
from the cryptographic random source); `randfactor` is only invoked when the
growth factor is positive.  `unusedMaxRetries` is the second Go parameter,
bound to the blank identifier `_` in the source.

The `float64` → `time.Duration` conversion truncates toward zero (`truncQ`)
for values representable in `int64`; for out-of-range values Go's conversion
result is implementation-dependent, so the bound theorems below carry an
explicit in-range hypothesis.  The `next += …` addition is `int64` addition
and wraps on overflow, modelled by `wrap64`. -/
def backoffFn (b : Backoff) (retry : ℤ) (rf : ℚ) (unusedMaxRetries : ℤ) : ℤ :=
  if retry < 1 then b.min
  else
    -- factor := (b.Factor * float64(retry)) * float64(b.Grow)
    let factor : ℚ := b.factor * (retry : ℚ) * (b.grow : ℚ)
    -- if factor > 0 { next += time.Duration(factor * b.randfactor(retry)) }
    let next : ℤ :=
      if 0 < factor then wrap64 (b.interval + truncQ (factor * rf))
      else b.interval
    if next < 0 then 0
    else if 0 < b.min ∧ next < b.min then b.min
    else if 0 < b.max ∧ b.max < next then b.max
    else next

theorem wrap64_eq_self (z : ℤ) (h1 : -2 ^ 63 ≤ z) (h2 : z < 2 ^ 63) :
    wrap64 z = z := by
  unfold wrap64
  omega

/-! ## Claims C1, C2, C10: the backoff function -/

/-- C1, counterexample: at `retry = 1` with the default parameters the code's
sampling bound is `(M << 0) + 128 = 258` (with `M = 128 + 2^1 = 130`), whereas
the spec recipe `M + (M << 0) + 128` gives `388`; the claimed formula does not
match the code. -/
theorem c1_bound_counterexample :
    randfactorMax DefaultBackoff 1 = 258 ∧ randfactorMaxSpec DefaultBackoff 1 = 388 ∧
      randfactorMax DefaultBackoff 1 ≠ randfactorMaxSpec DefaultBackoff 1 := by
  refine ⟨by decide, by decide, by decide⟩

/-- C1, amended: for every `retry` in `[1, maxExp_effective]`, the integer
handed to `rand.Int` as the exclusive upper bound of the uniform draw equals
`(M << (retry-1)) + 128` where `M = 128 + 2^retry` (the first `M +` summand of
the spec's recipe is lost to `big.Int` receiver aliasing), and this bound is
positive, as `rand.Int` requires. -/
theorem c1_bound_amended (b : Backoff) (retry : ℤ)
    (h1 : 1 ≤ retry) (h2 : retry ≤ b.maxexEff) :
    randfactorMax b retry = (128 + 2 ^ retry.toNat) * 2 ^ (retry - 1).toNat + 128 ∧
      0 < randfactorMax b retry := by
  have hclamp : ¬ b.maxexEff < retry := not_lt.mpr h2
  constructor
  · simp [randfactorMax, hclamp]
  · have h128 : (0:ℤ) < 128 := by decide
    have hp : (0:ℤ) < (128 + 2 ^ retry.toNat) * 2 ^ (retry - 1).toNat :=
      mul_pos (by positivity) (by positivity)
    simp only [randfactorMax, if_neg hclamp]
    omega

/-- Witness for `c1_bound_amended` at `b = DefaultBackoff`, `retry = 5`. -/
theorem c1_bound_amended_witness :
    (1:ℤ) ≤ 5 ∧ (5:ℤ) ≤ DefaultBackoff.maxexEff ∧
      (randfactorMax DefaultBackoff 5 =
          (128 + 2 ^ (5:ℤ).toNat) * 2 ^ ((5:ℤ) - 1).toNat + 128 ∧
        0 < randfactorMax DefaultBackoff 5) :=
  ⟨by decide, by decide, c1_bound_amended DefaultBackoff 5 (by decide) (by decide)⟩

/-- The parameter set refuting C2 as stated: it passes `Check`
(`max = min = 0` satisfies `max ≥ min`), yet with `max = 0` the code performs
no upper clamp at all. -/
def c2CexParams : Backoff :=
  { interval := 15 * 1000000000
    factor := 1
    grow := 0
    min := 0
    max := 0
    maxExp := 20
    expM := 0
    expScale := 0 }

/-- C2, counterexample: `c2CexParams` satisfies every validity invariant the
claim lists (via `Backoff.check`), but `backoff(1, _)` returns the interval,
15 s, which is not in `[min, max] = [0, 0]`: the guard `max > 0 && next > max`
treats `max = 0` as "no upper bound". -/
theorem c2_bounds_counterexample :
    c2CexParams.check = true ∧ backoffFn c2CexParams 1 0 0 = 15 * 1000000000 ∧
      ¬ backoffFn c2CexParams 1 0 0 ≤ c2CexParams.max := by
  have heval : backoffFn c2CexParams 1 0 0 = 15 * 1000000000 := by
    norm_num [backoffFn, c2CexParams]
  exact ⟨by decide, heval, by rw [heval]; decide⟩

theorem backoff_clamp_bounds (bmin bmax next : ℤ) (hmin0 : 0 ≤ bmin)
    (hminmax : bmin ≤ bmax) (hmax : 0 < bmax) (hnn : 0 ≤ next) :
    bmin ≤ (if next < 0 then 0
        else if 0 < bmin ∧ next < bmin then bmin
        else if 0 < bmax ∧ bmax < next then bmax else next) ∧
      (if next < 0 then 0
        else if 0 < bmin ∧ next < bmin then bmin
        else if 0 < bmax ∧ bmax < next then bmax else next) ≤ bmax := by
  split_ifs <;> omega

/-- C2, amended: for every parameter set passing `Check` with, in addition,
`interval ≥ 0` and `max > 0` (the code skips the upper clamp when `max = 0`
and the lower clamp when the pre-clamp value is negative, which a negative
interval makes reachable), for every nonnegative jitter value returned by
`randfactor`, and provided `interval` plus the truncated jitter addend stays
below `2^63` — `Check` does not rule out parameter sets (huge `Factor`) for
which the `int64` addition `next += time.Duration(factor * randfactor)`
overflows, wraps negative, and is clamped to `0 < min` — the delay lies in
`[min, max]`, and `retry < 1` returns `min`. -/
theorem c2_bounds_amended (b : Backoff) (retry : ℤ) (rf : ℚ) (m : ℤ)
    (hchk : b.check = true) (hiv : 0 ≤ b.interval) (hmax : 0 < b.max)
    (hrf : 0 ≤ rf)
    (hnoflow : b.interval +
      truncQ (b.factor * (retry : ℚ) * (b.grow : ℚ) * rf) < 2 ^ 63) :
    b.min ≤ backoffFn b retry rf m ∧ backoffFn b retry rf m ≤ b.max ∧
      (retry < 1 → backoffFn b retry rf m = b.min) := by
  have hc := hchk
  simp only [Backoff.check, Bool.not_eq_true', decide_eq_false_iff_not,
    Bool.or_eq_false_iff, decide_eq_true_eq, not_lt, not_le] at hc
  obtain ⟨⟨⟨⟨⟨⟨⟨-, -⟩, hmin0⟩, hminmax⟩, -⟩, -⟩, -⟩, -⟩ := hc
  by_cases hr : retry < 1
  · refine ⟨?_, ?_, fun _ => ?_⟩ <;> simp [backoffFn, hr] <;> omega
  · simp only [backoffFn, if_neg hr]
    by_cases hpos : 0 < b.factor * (retry : ℚ) * (b.grow : ℚ)
    · rw [if_pos hpos]
      have hjit : 0 ≤ truncQ (b.factor * (retry : ℚ) * (b.grow : ℚ) * rf) := by
        have hq : (0:ℚ) ≤ b.factor * (retry : ℚ) * (b.grow : ℚ) * rf :=
          mul_nonneg (le_of_lt hpos) hrf
        simp only [truncQ, if_pos hq]
        exact Int.floor_nonneg.mpr hq
      rw [wrap64_eq_self _ (by omega) (by omega)]
      have h := backoff_clamp_bounds b.min b.max
        (b.interval + truncQ (b.factor * (retry : ℚ) * (b.grow : ℚ) * rf))
        hmin0 hminmax hmax (by omega)
      exact ⟨h.1, h.2, fun hcon => absurd hcon hr⟩
    · rw [if_neg hpos]
      have h := backoff_clamp_bounds b.min b.max b.interval hmin0 hminmax hmax hiv
      exact ⟨h.1, h.2, fun hcon => absurd hcon hr⟩

/-- Witness for `c2_bounds_amended` at the default parameters,
`retry = 3`, `rf = 0`, `m = 10`. -/
theorem c2_bounds_amended_witness :
    DefaultBackoff.check = true ∧ (0:ℤ) ≤ DefaultBackoff.interval ∧
      (0:ℤ) < DefaultBackoff.max ∧ (0:ℚ) ≤ 0 ∧
      DefaultBackoff.interval +
        truncQ (DefaultBackoff.factor * ((3:ℤ) : ℚ) *
          (DefaultBackoff.grow : ℚ) * 0) < 2 ^ 63 ∧
      (DefaultBackoff.min ≤ backoffFn DefaultBackoff 3 0 10 ∧
        backoffFn DefaultBackoff 3 0 10 ≤ DefaultBackoff.max ∧
        ((3:ℤ) < 1 → backoffFn DefaultBackoff 3 0 10 = DefaultBackoff.min)) :=
  ⟨by decide, by decide, by decide, by decide,
    by simp [DefaultBackoff, truncQ],
    c2_bounds_amended DefaultBackoff 3 0 10 (by decide) (by decide) (by decide)
      (by decide) (by simp [DefaultBackoff, truncQ])⟩

/-! ## Claim C6: the `backoff` configuration directive -/

/-- A codf expression argument, as consumed by `parseArg` in the config
walker: the token kinds the `backoff` directive can meet.  Duration tokens
carry nanoseconds. -/
inductive CodfArg where
  | dur (d : ℤ)
  | int (i : ℤ)
  | flt (q : ℚ)
  | word (s : String)
  | str (s : String)
  deriving DecidableEq

/-- `codf.Duration`: succeeds on duration literal tokens. -/
def codfDuration : CodfArg → Option ℤ
  | .dur d => some d
  | _ => none

/-- `codf.Float64`: succeeds on numeric literal tokens, converting integers. -/
def codfFloat : CodfArg → Option ℚ
  | .flt q => some q
  | .int i => some (i : ℚ)
  | _ => none

/-- `codf.Int64` (via the `*int` case of `parseArg`). -/
def codfInt : CodfArg → Option ℤ
  | .int i => some i
  | _ => none

/-- The `Keyword` case of `parseArg`: matches a bareword equal to `k`. -/
def codfWordIs (k : String) : CodfArg → Bool
  | .word s => s == k
  | _ => false

/-- The `seenFactor … seenExpScale` flags of `handleBackoff`. -/
structure KwSeen where
  factor : Bool
  grow : Bool
  min : Bool
  max : Bool
  maxExp : Bool
  expM : Bool
  expScale : Bool
  deriving DecidableEq

/-- One `!seenX && parseArgsUpTo(args, Keyword(k), &field) == nil` test of the
keyword switch: `parseArgsUpTo` truncates the argument list to two entries and
then demands exactly a bareword `k` followed by a value of the field's type,
so the case succeeds only when the keyword has not been seen, the first
argument is the bareword, and the second parses. -/
def kwCase {α : Type} (seen : Bool) (k : String) (p : CodfArg → Option α)
    (a v : CodfArg) : Option α :=
  if seen then none else if codfWordIs k a then p v else none

/-- The keyword loop of `PortConfig.handleBackoff`: cases are tried in the
source's order (`factor`, `grow-by`, `min`, `max`, `exp-max`, `exp-m`,
`exp-y`); a successful case consumes two arguments; when no case fires the
directive fails with "invalid argument".  A trailing single argument also
fails: every case needs a keyword–value pair. -/
def backoffKwLoop : List CodfArg → KwSeen → Backoff → Except String Backoff
  | [], _, b => .ok b
  | _ :: [], _, _ => .error "invalid argument"
  | a :: v :: rest, s, b =>
    match kwCase s.factor "factor" codfFloat a v with
    | some x => backoffKwLoop rest { s with factor := true } { b with factor := x }
    | none =>
    match kwCase s.grow "grow-by" codfDuration a v with
    | some x => backoffKwLoop rest { s with grow := true } { b with grow := x }
    | none =>
    match kwCase s.min "min" codfDuration a v with
    | some x => backoffKwLoop rest { s with min := true } { b with min := x }
    | none =>
    match kwCase s.max "max" codfDuration a v with
    | some x => backoffKwLoop rest { s with max := true } { b with max := x }
    | none =>
    match kwCase s.maxExp "exp-max" codfInt a v with
    | some x => backoffKwLoop rest { s with maxExp := true } { b with maxExp := x }
    | none =>
    match kwCase s.expM "exp-m" codfFloat a v with
    | some x => backoffKwLoop rest { s with expM := true } { b with expM := x }
    | none =>
    match kwCase s.expScale "exp-y" codfFloat a v with
    | some x => backoffKwLoop rest { s with expScale := true } { b with expScale := x }
    | none => .error "invalid argument"

/-- `PortConfig.handleBackoff`, taking the port's current `Backoff` (the
default, from `NewPortConfig`) and the directive's arguments, and returning
the port's `Backoff` after the directive.  The source first parses the leading
positional argument into `p.Backoff.Interval`, then builds `b` starting from
`DefaultBackoff` — not from `p.Backoff` — runs the keyword loop and `b.Check()`,
and finally executes `p.Backoff = b`, which overwrites the interval it just
stored.  The intermediate store is kept below as `_pBackoffAfterIntervalWrite`
to mirror the source. -/
def handleBackoff (pBackoff : Backoff) (args : List CodfArg) :
    Except String Backoff :=
  match args with
  | [] => .error "expected 1 or more arguments"
  | a :: rest =>
    match codfDuration a with
    | none => .error "error parsing parameter 1"
    | some d =>
      let _pBackoffAfterIntervalWrite := { pBackoff with interval := d }
      match backoffKwLoop rest ⟨false, false, false, false, false, false, false⟩
          DefaultBackoff with
      | .error e => .error e
      | .ok b => if b.check then .ok b else .error "backoff check failed"

/-- C6, code bug: the directive `backoff 30s min 1s` parses successfully, the
`min` keyword lands, and `Check` runs — but the resulting backoff's interval
is the default 15 s, not the 30 s that the first positional argument supplied:
`handleBackoff` parses the interval into `p.Backoff.Interval` and then
overwrites `p.Backoff` wholesale with a record rebuilt from `DefaultBackoff`. -/
theorem c6_interval_discarded :
    handleBackoff DefaultBackoff
        [CodfArg.dur 30000000000, CodfArg.word "min", CodfArg.dur 1000000000] =
      Except.ok { DefaultBackoff with min := 1000000000 } ∧
      ({ DefaultBackoff with min := 1000000000 } : Backoff).interval ≠
        30000000000 := by
  exact ⟨rfl, by decide⟩

/-- C10, confirmed: the second parameter of `backoff` is bound to the blank
identifier in the source and has no effect on the returned duration: for any
parameter set, retry count and fixed draw from the random source, the results
for any two `maxRetries` values coincide. -/
theorem c10_maxretries_unused (b : Backoff) (retry : ℤ) (rf : ℚ) (m1 m2 : ℤ) :
    backoffFn b retry rf m1 = backoffFn b retry rf m2 := rfl

/-! ## Claims C7, C8: `ParseAddr` and the `Addr` display form

`ParseAddr` delegates to Go's `net/url.Parse` and `net.SplitHostPort`.  Both
are modelled below on `List Char`, following the standard library sources,
with two documented simplifications: percent-escape decoding and host/userinfo
character validation are modelled as the identity (none of the strings
considered here contain `%`-escapes or invalid host characters). -/

/-- `strings.Cut(s, string(c))` — `(before, after)`; when `c` does not occur,
`before` is the whole string and `after` is empty. -/
def strCut (c : Char) (l : List Char) : List Char × List Char :=
  (l.takeWhile (· != c), (l.dropWhile (· != c)).drop 1)

/-- First index of `c`, like `strings.IndexByte`. -/
def idxOf (l : List Char) (c : Char) : Option ℕ :=
  l.findIdx? (· = c)

/-- Last index of `c`, like `strings.LastIndexByte`. -/
def lastIdxOf (l : List Char) (c : Char) : Option ℕ :=
  match l.reverse.findIdx? (· = c) with
  | none => none
  | some j => some (l.length - 1 - j)

/-- A letter, the only kind of character that may begin a URL scheme
(`getScheme` in `net/url`). -/
def isSchemeHeadChar (c : Char) : Bool :=
  ('a' ≤ c && c ≤ 'z') || ('A' ≤ c && c ≤ 'Z')

/-- A character allowed after the first position of a URL scheme. -/
def isSchemeChar (c : Char) : Bool :=
  isSchemeHeadChar c || ('0' ≤ c && c ≤ '9') || c == '+' || c == '-' || c == '.'

/-- `getScheme` of `net/url`: `.ok (some (scheme, rest))` when the string
begins with `letter (letter|digit|+|-|.)* :`; `.ok none` (no scheme, whole
string is the remainder) when an invalid character appears first; an error
when the string begins with `:`. -/
def getScheme : List Char → Except String (Option (List Char × List Char))
  | [] => .ok none
  | c :: cs =>
    if c = ':' then .error "missing protocol scheme"
    else if isSchemeHeadChar c then
      match cs.dropWhile isSchemeChar with
      | d :: rest =>
        if d = ':' then .ok (some (c :: cs.takeWhile isSchemeChar, rest))
        else .ok none
      | [] => .ok none
    else .ok none

/-- `validOptionalPort` of `net/url`: empty, or `:` followed by digits only. -/
def validOptionalPort (p : List Char) : Bool :=
  match p with
  | [] => true
  | ':' :: rest => rest.all (fun c => '0' ≤ c && c ≤ '9')
  | _ => false

/-- `parseHost` of `net/url`, restricted to port validation: for a bracketed
host the text after the closing `]` must be a valid optional port, otherwise
the text after the last `:` (if any) must be.  Character validation and
unescaping of the host text are modelled as the identity. -/
def parseHost (host : List Char) : Except String (List Char) :=
  match host with
  | '[' :: _ =>
    match lastIdxOf host ']' with
    | none => .error "missing ']' in host"
    | some i =>
      if validOptionalPort (host.drop (i + 1)) then .ok host
      else .error "invalid port after host"
  | _ =>
    match lastIdxOf host ':' with
    | none => .ok host
    | some i =>
      if validOptionalPort (host.drop i) then .ok host
      else .error "invalid port after host"

/-- `parseAuthority` of `net/url`: split userinfo at the last `@`; validate
the host.  Userinfo character validation is modelled as the identity. -/
def parseAuthority (authority : List Char) :
    Except String (Option (List Char) × List Char) :=
  match lastIdxOf authority '@' with
  | none =>
    match parseHost authority with
    | .error e => .error e
    | .ok h => .ok (none, h)
  | some i =>
    match parseHost (authority.drop (i + 1)) with
    | .error e => .error e
    | .ok h => .ok (some (authority.take i), h)

/-- The fields of `net/url.URL` that `ParseAddr` inspects.  `opq` models the
Go field `Opaque`. -/
structure URLParts where
  scheme : List Char
  opq : List Char
  host : List Char
  path : List Char
  rawQuery : List Char
  fragment : List Char
  user : Option (List Char)
  deriving DecidableEq

/-- The body of `net/url.Parse` after scheme detection: cut the query at the
first `?`, then produce either opaque (`scheme:rest`), authority + path
(`…//authority/path`), or a bare path — rejecting a colon in the first path
segment of a scheme-less bare path. -/
def urlParseAfterScheme (scheme rest1 frag : List Char) :
    Except String URLParts :=
  let cutQ := strCut '?' rest1
  if cutQ.1.take 2 = ['/', '/'] then
    if scheme ≠ [] ∨ ¬ cutQ.1.take 3 = ['/', '/', '/'] then
      let afterSlashes := cutQ.1.drop 2
      let authority := afterSlashes.takeWhile (· != '/')
      let rest3 := afterSlashes.dropWhile (· != '/')
      match parseAuthority authority with
      | .error e => .error e
      | .ok (user, host) =>
        .ok ⟨scheme, [], host, rest3, cutQ.2, frag, user⟩
    else
      .ok ⟨[], [], [], cutQ.1, cutQ.2, frag, none⟩
  else
    if scheme ≠ [] then
      .ok ⟨scheme, cutQ.1, [], [], cutQ.2, frag, none⟩
    else if ':' ∈ (strCut '/' cutQ.1).1 then
      .error "first path segment in URL cannot contain colon"
    else
      .ok ⟨[], [], [], cutQ.1, cutQ.2, frag, none⟩

/-- `net/url.Parse` (with `viaRequest = false`): cut the fragment at the first
`#`; detect the scheme (lower-casing it); then parse the remainder. -/
def urlParse (rawURL : List Char) : Except String URLParts :=
  let cutF := strCut '#' rawURL
  match getScheme cutF.1 with
  | .error e => .error e
  | .ok none => urlParseAfterScheme [] cutF.1 cutF.2
  | .ok (some (sc, r)) => urlParseAfterScheme (sc.map Char.toLower) r cutF.2

/-- `net.SplitHostPort`. -/
def splitHostPort (hostPort : List Char) :
    Except String (List Char × List Char) :=
  match lastIdxOf hostPort ':' with
  | none => .error "missing port in address"
  | some i =>
    if hostPort.take 1 = ['['] then
      match idxOf hostPort ']' with
      | none => .error "missing ']' in address"
      | some e =>
        if e + 1 = hostPort.length then .error "missing port in address"
        else if e + 1 = i then
          if '[' ∈ hostPort.drop 1 then .error "unexpected '[' in address"
          else if ']' ∈ hostPort.drop (e + 1) then
            .error "unexpected ']' in address"
          else .ok ((hostPort.drop 1).take (e - 1), hostPort.drop (i + 1))
        else if hostPort.get? (e + 1) = some ':' then
          .error "too many colons in address"
        else .error "missing port in address"
    else
      if ':' ∈ hostPort.take i then .error "too many colons in address"
      else if '[' ∈ hostPort then .error "unexpected '[' in address"
      else if ']' ∈ hostPort then .error "unexpected ']' in address"
      else .ok (hostPort.take i, hostPort.drop (i + 1))

/-- The `Addr` record of the codf config variant (`Network`, `Addr`). -/
structure Addr where
  network : List Char
  addr : List Char
  deriving DecidableEq

def udpL : List Char := ['u', 'd', 'p']

def udp4L : List Char := ['u', 'd', 'p', '4']

def udp6L : List Char := ['u', 'd', 'p', '6']

/-- The `switch netw { case "udp", "udp4", "udp6": }` allowlist. -/
def allowedNet (n : List Char) : Bool :=
  n = udpL ∨ n = udp4L ∨ n = udp6L

/-- The tail of `ParseAddr` after the network/hostport have been chosen:
the protocol allowlist check, then `net.SplitHostPort`, then the non-empty
port check; on success the `Addr` keeps `hostport` verbatim. -/
def finishAddr (netw hostPort : List Char) : Except String Addr :=
  if allowedNet netw then
    match splitHostPort hostPort with
    | .error e => .error e
    | .ok (_, p) =>
      if p = [] then .error "no port given" else .ok ⟨netw, hostPort⟩
  else .error "invalid protocol; must be udp, udp4, or udp6"

/-- The `switch` body of `ParseAddr` on a successful `url.Parse`: fragments,
query strings and paths are rejected, a missing scheme is rejected, and
`scheme:opaque` / `scheme://host` select the network and host-port; a parse
with a scheme but neither opaque nor host falls through with the defaults
(`netw = "udp"`, the input unchanged). -/
def parseAddrChecks (hostPort : List Char) (u : URLParts) :
    Except String Addr :=
  if u.fragment ≠ [] then .error "invalid address: cannot have a fragment"
  else if u.rawQuery ≠ [] then
    .error "invalid address: cannot have a query string"
  else if u.path ≠ [] then .error "invalid address: cannot have a path"
  else if u.scheme = [] then .error "invalid address: must have a protocol"
  else if u.opq ≠ [] then finishAddr u.scheme u.opq
  else if u.host ≠ [] then finishAddr u.scheme u.host
  else finishAddr udpL hostPort

/-- `ParseAddr` of the codf config variant.  A `url.Parse` failure falls
through the `switch` with `netw = "udp"` and the input unchanged; a success
runs the rejection checks of `parseAddrChecks`. -/
def ParseAddr (hostPort : List Char) : Except String Addr :=
  match urlParse hostPort with
  | .error _ => finishAddr udpL hostPort
  | .ok u => parseAddrChecks hostPort u

/-- `(*Addr).String()`: `a.Network + "(" + a.Addr + ")"`. -/
def Addr.display (a : Addr) : List Char :=
  a.network ++ '(' :: (a.addr ++ [')'])

theorem takeWhile_append_all {p : Char → Bool} (l₁ l₂ : List Char)
    (h : l₁.all p = true) : (l₁ ++ l₂).takeWhile p = l₁ ++ l₂.takeWhile p := by
  induction l₁ with
  | nil => simp
  | cons a t ih =>
    simp only [List.all_cons, Bool.and_eq_true] at h
    simp [List.takeWhile_cons, h.1, ih h.2]

theorem dropWhile_append_all {p : Char → Bool} (l₁ l₂ : List Char)
    (h : l₁.all p = true) : (l₁ ++ l₂).dropWhile p = l₂.dropWhile p := by
  induction l₁ with
  | nil => simp
  | cons a t ih =>
    simp only [List.all_cons, Bool.and_eq_true] at h
    simp [List.dropWhile_cons, h.1, ih h.2]

/-- Cutting a string of the shape `c :: cs ++ '(' :: x` at a character `ch`
that occurs in neither `c :: cs` nor `'('` keeps the prefix intact. -/
theorem strCut_shape (ch c : Char) (cs x : List Char)
    (h1 : (c != ch) = true) (h2 : cs.all (· != ch) = true)
    (h3 : (('(' : Char) != ch) = true) :
    strCut ch (c :: (cs ++ '(' :: x)) =
      (c :: (cs ++ '(' :: x.takeWhile (· != ch)),
        (x.dropWhile (· != ch)).drop 1) := by
  have hall : ((c :: cs) ++ ['(']).all (· != ch) = true := by
    simp only [List.all_append, List.all_cons, List.all_nil, Bool.and_eq_true]
    exact ⟨⟨h1, h2⟩, h3, trivial⟩
  have hsplit2 : ∀ y : List Char, c :: (cs ++ '(' :: y) = ((c :: cs) ++ ['(']) ++ y := by
    intro y; simp
  rw [strCut, hsplit2 x, takeWhile_append_all _ _ hall,
    dropWhile_append_all _ _ hall, ← hsplit2]

/-- `getScheme` returns "no scheme" on any string that starts with a letter,
continues with scheme characters, and then meets `'('`. -/
theorem getScheme_paren (c : Char) (cs y : List Char)
    (hc1 : ¬ c = ':') (hc2 : isSchemeHeadChar c = true)
    (hcs : cs.all isSchemeChar = true) :
    getScheme (c :: (cs ++ '(' :: y)) = .ok none := by
  have hdw : (cs ++ '(' :: y).dropWhile isSchemeChar = '(' :: y := by
    rw [show cs ++ '(' :: y = cs ++ ('(' :: y) from rfl,
      dropWhile_append_all _ _ hcs, List.dropWhile_cons,
      if_neg (by decide : ¬ isSchemeChar '(' = true)]
  rw [getScheme, if_neg hc1, if_pos hc2, hdw]
  simp

theorem finishAddr_ok (n hp : List Char) (a : Addr)
    (h : finishAddr n hp = .ok a) : a = ⟨n, hp⟩ ∧ allowedNet n = true := by
  unfold finishAddr at h
  split at h
  · next hn =>
    split at h
    · exact absurd h (by simp)
    · split at h
      · exact absurd h (by simp)
      · exact ⟨(Except.ok.inj h).symm, hn⟩
  · exact absurd h (by simp)

/-- On a scheme-less input that does not start with `//` and is non-empty,
`urlParseAfterScheme` either rejects a colon in the first path segment or
returns a URL with a non-empty path. -/
theorem urlParseAfterScheme_noscheme (rest1 frag : List Char)
    (hpre : ¬ (strCut '?' rest1).1.take 2 = ['/', '/'])
    (hne : (strCut '?' rest1).1 ≠ []) :
    urlParseAfterScheme [] rest1 frag =
        .error "first path segment in URL cannot contain colon" ∨
      ∃ u, urlParseAfterScheme [] rest1 frag = .ok u ∧ u.path ≠ [] := by
  unfold urlParseAfterScheme
  rw [if_neg hpre, if_neg (by simp)]
  split
  · exact Or.inl rfl
  · exact Or.inr ⟨_, rfl, hne⟩

/-- If scheme detection yields "no scheme", `urlParse` runs the rest of the
parse with an empty scheme on the fragment-stripped input. -/
theorem urlParse_of_getScheme_none (rawURL : List Char)
    (hgs : getScheme (strCut '#' rawURL).1 = .ok none) :
    urlParse rawURL =
      urlParseAfterScheme [] (strCut '#' rawURL).1 (strCut '#' rawURL).2 := by
  simp only [urlParse, hgs]

/-- A `url.Parse` failure sends `ParseAddr` to the bare host-port branch. -/
theorem parseAddr_of_urlParse_error (s : List Char) (e : String)
    (h : urlParse s = .error e) : ParseAddr s = finishAddr udpL s := by
  unfold ParseAddr
  rw [h]

/-- A `url.Parse` success sends `ParseAddr` to the rejection checks. -/
theorem parseAddr_of_urlParse_ok (s : List Char) (u : URLParts)
    (h : urlParse s = .ok u) : ParseAddr s = parseAddrChecks s u := by
  unfold ParseAddr
  rw [h]

/-- Every successful `ParseAddr` result carries an allowlisted network. -/
theorem parseAddr_ok_network (s : List Char) (a : Addr)
    (h : ParseAddr s = .ok a) : allowedNet a.network = true := by
  have ofFinish : ∀ n hp, finishAddr n hp = .ok a → allowedNet a.network = true := by
    intro n hp hf
    obtain ⟨ha, hn⟩ := finishAddr_ok n hp a hf
    rw [ha]
    exact hn
  unfold ParseAddr at h
  split at h
  · exact ofFinish _ _ h
  · unfold parseAddrChecks at h
    split at h
    · exact absurd h (by simp)
    · split at h
      · exact absurd h (by simp)
      · split at h
        · exact absurd h (by simp)
        · split at h
          · exact absurd h (by simp)
          · split at h
            · exact ofFinish _ _ h
            · split at h
              · exact ofFinish _ _ h
              · exact ofFinish _ _ h

/-- If the display string `n ++ "(" ++ x` of an allowlisted network `n`
parses at all, it parses as a bare host-port: network `udp` and the whole
display string as the address. -/
theorem parseAddr_display_cases (n x : List Char) (hn : allowedNet n = true)
    (b : Addr) (hb : ParseAddr (n ++ '(' :: x) = .ok b) :
    b = ⟨udpL, n ++ '(' :: x⟩ := by
  -- Decompose the three possible networks into head/tail shape facts.
  have hshape : ∃ c cs, n = c :: cs ∧ ¬ c = ':' ∧ (c != '/') = true ∧
      isSchemeHeadChar c = true ∧ cs.all isSchemeChar = true ∧
      (c != '#') = true ∧ cs.all (· != '#') = true ∧
      (c != '?') = true ∧ cs.all (· != '?') = true := by
    have : n = udpL ∨ n = udp4L ∨ n = udp6L := by
      simpa [allowedNet, decide_eq_true_eq] using hn
    rcases this with h1 | h1 | h1 <;> subst h1
    · exact ⟨'u', ['d', 'p'], rfl, by decide, by decide, by decide, by decide,
        by decide, by decide, by decide, by decide⟩
    · exact ⟨'u', ['d', 'p', '4'], rfl, by decide, by decide, by decide,
        by decide, by decide, by decide, by decide, by decide⟩
    · exact ⟨'u', ['d', 'p', '6'], rfl, by decide, by decide, by decide,
        by decide, by decide, by decide, by decide, by decide⟩
  obtain ⟨c, cs, hncs, hcol, hslash, hhead, hschars, hH1, hH2, hQ1, hQ2⟩ := hshape
  subst hncs
  have hcons : (c :: cs) ++ '(' :: x = c :: (cs ++ '(' :: x) := rfl
  rw [hcons] at hb ⊢
  -- The fragment cut keeps the `c :: cs ++ '(' :: _` shape.
  have hcutF := strCut_shape '#' c cs x hH1 hH2 (by decide)
  set y := x.takeWhile (· != '#') with hy
  -- Scheme detection fails at the '(' character.
  have hgs : getScheme (strCut '#' (c :: (cs ++ '(' :: x))).1 = .ok none := by
    rw [hcutF]
    exact getScheme_paren c cs y hcol hhead hschars
  -- The query cut again keeps the shape.
  have hcutQ := strCut_shape '?' c cs y hQ1 hQ2 (by decide)
  set z := y.takeWhile (· != '?') with hz
  have hrest2 : (strCut '?' (strCut '#' (c :: (cs ++ '(' :: x))).1).1 =
      c :: (cs ++ '(' :: z) := by
    rw [hcutF]
    simp only [hcutQ]
  have hpre : ¬ (strCut '?' (strCut '#' (c :: (cs ++ '(' :: x))).1).1.take 2 =
      ['/', '/'] := by
    rw [hrest2]
    intro hcontra
    have : c = '/' := by
      have := congrArg (·.head?) hcontra
      simpa using this
    rw [this] at hslash
    exact absurd hslash (by decide)
  have hne : (strCut '?' (strCut '#' (c :: (cs ++ '(' :: x))).1).1 ≠ [] := by
    rw [hrest2]; exact List.cons_ne_nil _ _
  have hup := urlParse_of_getScheme_none _ hgs
  rcases urlParseAfterScheme_noscheme (strCut '#' (c :: (cs ++ '(' :: x))).1
      (strCut '#' (c :: (cs ++ '(' :: x))).2 hpre hne with herr | ⟨u, hok, hpath⟩
  · -- url.Parse failed: ParseAddr falls through to the bare host-port branch.
    rw [parseAddr_of_urlParse_error _ _ (hup.trans herr)] at hb
    exact (finishAddr_ok _ _ _ hb).1
  · -- url.Parse succeeded with a non-empty path: ParseAddr rejects, so the
    -- hypothesis `hb` is impossible in this branch.
    rw [parseAddr_of_urlParse_ok _ _ (hup.trans hok)] at hb
    unfold parseAddrChecks at hb
    by_cases hf : u.fragment ≠ []
    · rw [if_pos hf] at hb; exact absurd hb (by simp)
    · rw [if_neg hf] at hb
      by_cases hq : u.rawQuery ≠ []
      · rw [if_pos hq] at hb; exact absurd hb (by simp)
      · rw [if_neg hq, if_pos hpath] at hb
        exact absurd hb (by simp)

/-- C7, counterexample: `"127.0.0.1:80"` parses to `{udp, "127.0.0.1:80"}`
and displays as `"udp(127.0.0.1:80)"`, but re-parsing the display yields
`{udp, "udp(127.0.0.1:80)"}` — `url.Parse` rejects the display (colon in the
first path segment), so `ParseAddr` treats the whole display string as a bare
host-port — which differs from the original address. -/
theorem c7_roundtrip_counterexample :
    ParseAddr "127.0.0.1:80".data = .ok ⟨udpL, "127.0.0.1:80".data⟩ ∧
      Addr.display ⟨udpL, "127.0.0.1:80".data⟩ = "udp(127.0.0.1:80)".data ∧
      ParseAddr "udp(127.0.0.1:80)".data =
        .ok ⟨udpL, "udp(127.0.0.1:80)".data⟩ ∧
      (⟨udpL, "udp(127.0.0.1:80)".data⟩ : Addr) ≠ ⟨udpL, "127.0.0.1:80".data⟩ :=
  ⟨rfl, rfl, rfl, by decide⟩

/-- C7, amended: for every string accepted by `ParseAddr`, the display form
`network(hostport)` never re-parses to the original `Addr`: whenever the
display parses at all, it parses as a bare host-port whose address field is
the entire display string, which is strictly longer than the original
address. -/
theorem c7_roundtrip_amended (s : List Char) (a : Addr)
    (h : ParseAddr s = .ok a) :
    (∀ b, ParseAddr a.display = .ok b → b = ⟨udpL, a.display⟩) ∧
      ParseAddr a.display ≠ .ok a := by
  have hnet := parseAddr_ok_network s a h
  have hmain : ∀ b, ParseAddr a.display = .ok b → b = ⟨udpL, a.display⟩ := by
    intro b hb
    exact parseAddr_display_cases a.network (a.addr ++ [')']) hnet b hb
  refine ⟨hmain, fun hcontra => ?_⟩
  have ha := hmain a hcontra
  have haddr : a.addr = a.network ++ '(' :: (a.addr ++ [')']) :=
    congrArg Addr.addr ha
  have hlen := congrArg List.length haddr
  simp [List.length_append] at hlen
  omega

/-- Witness for `c7_roundtrip_amended` at `s = "10.0.0.1:70"`. -/
theorem c7_roundtrip_amended_witness :
    ParseAddr "10.0.0.1:70".data = .ok ⟨udpL, "10.0.0.1:70".data⟩ ∧
      ((∀ b, ParseAddr (Addr.display ⟨udpL, "10.0.0.1:70".data⟩) = .ok b →
          b = ⟨udpL, Addr.display ⟨udpL, "10.0.0.1:70".data⟩⟩) ∧
        ParseAddr (Addr.display ⟨udpL, "10.0.0.1:70".data⟩) ≠
          .ok ⟨udpL, "10.0.0.1:70".data⟩) :=
  ⟨rfl, c7_roundtrip_amended "10.0.0.1:70".data ⟨udpL, "10.0.0.1:70".data⟩ rfl⟩

/-- C8, counterexample: `"localhost:9000"` is a bare host-port with no
`udp`/`udp4`/`udp6` prefix whose host-port split succeeds with the non-empty
port `"9000"`, yet `ParseAddr` rejects it: `url.Parse` reads `localhost` as a
URL scheme (`localhost:9000` is `scheme:opaque`), and `localhost` is not an
allowed network. -/
theorem c8_bare_hostport_counterexample :
    splitHostPort "localhost:9000".data =
        .ok ("localhost".data, "9000".data) ∧
      ParseAddr "localhost:9000".data =
        .error "invalid protocol; must be udp, udp4, or udp6" :=
  ⟨rfl, rfl⟩

/-- C8, amended: a bare `host:port` string is accepted — with network `udp`
and the host-port preserved verbatim — exactly when `url.Parse` fails on it
(for instance a colon in the first path segment, as with any host whose first
character is a digit) and the host-port split succeeds with a non-empty port.
Letter-initial bare hosts such as `localhost:9000` are instead read as a URL
scheme and rejected. -/
theorem c8_bare_hostport_amended (s h p : List Char) (e : String)
    (hurl : urlParse s = .error e)
    (hsplit : splitHostPort s = .ok (h, p)) (hp : p ≠ []) :
    ParseAddr s = .ok ⟨udpL, s⟩ := by
  rw [parseAddr_of_urlParse_error s e hurl]
  unfold finishAddr
  rw [if_pos (by decide : allowedNet udpL = true), hsplit]
  show (if p = [] then Except.error "no port given"
      else Except.ok (⟨udpL, s⟩ : Addr)) = Except.ok (⟨udpL, s⟩ : Addr)
  rw [if_neg hp]

/-- Witness for `c8_bare_hostport_amended` at `s = "127.0.0.1:9000"`. -/
theorem c8_bare_hostport_amended_witness :
    urlParse "127.0.0.1:9000".data =
        .error "first path segment in URL cannot contain colon" ∧
      splitHostPort "127.0.0.1:9000".data =
        .ok ("127.0.0.1".data, "9000".data) ∧
      "9000".data ≠ ([] : List Char) ∧
      ParseAddr "127.0.0.1:9000".data = .ok ⟨udpL, "127.0.0.1:9000".data⟩ :=
  ⟨rfl, rfl, by decide,
    c8_bare_hostport_amended "127.0.0.1:9000".data "127.0.0.1".data "9000".data
      "first path segment in URL cannot contain colon" rfl rfl (by decide)⟩

/-! ## Claim C5: the defensive copy in `newGateway`

Go pointers are modelled by a heap of objects indexed by `ℕ`: a `PortConfig`
holds pointer indices for its `Forward` URL and its `Listen` addresses, and
the pointed-to objects live in a `Heap`.  A Go struct assignment
(`*dup = *cfg`) copies the struct's own fields — including the pointer
indices — but not the pointed-to objects, which is exactly what the
functional `PortConfig` value captures. -/

/-- The fields of `net/url.URL` relevant to the gateway display string. -/
structure GoURL where
  scheme : List Char
  user : Option (List Char)
  host : List Char
  path : List Char
  rawQuery : List Char
  deriving DecidableEq

/-- The mutable objects reachable from a `PortConfig` through pointers. -/
structure Heap where
  urls : ℕ → GoURL
  addrs : ℕ → Addr

/-- The codf-variant `PortConfig`: `Listen []*Addr` and `Forward *url.URL`
are pointer-valued. -/
structure PortConfig where
  listen : List ℕ
  forward : ℕ
  flushInterval : ℤ
  flushSizeBytes : ℤ
  writeTimeout : ℤ
  readTimeout : ℤ
  maxRetries : ℤ
  backoffCfg : Backoff

/-- The runtime gateway record; only the stored config matters for C5. -/
structure Gateway where
  cfg : PortConfig

/-- The copy block of `newGateway`:
`dup := new(PortConfig); *dup = *cfg; cfg = dup` — a Go struct assignment,
which duplicates the struct's fields (slice header and pointers included)
but none of the pointed-to objects. -/
def newGatewayCfg (cfg : PortConfig) : PortConfig := cfg

/-- `newGateway` (the parts visible to C5): stores the copied config. -/
def newGateway (cfg : PortConfig) : Gateway := ⟨newGatewayCfg cfg⟩

/-- `url.Values` query-string parsing (`u.Query()`), restricted: split on
`&`, then each `key=value` at the first `=`; no percent-decoding. -/
def parseQuery (q : List Char) : List (List Char × List Char) :=
  if q = [] then []
  else (q.splitOn '&').map (fun kv => strCut '=' kv)

/-- Lexicographic comparison of char lists, for `url.Values.Encode`'s key
sort. -/
def listCharLE : List Char → List Char → Bool
  | [], _ => true
  | _ :: _, [] => false
  | x :: xs, y :: ys => if x < y then true else if y < x then false else listCharLE xs ys

/-- Insertion into a key-sorted association list. -/
def insertByKey (kv : List Char × List Char) :
    List (List Char × List Char) → List (List Char × List Char)
  | [] => [kv]
  | x :: xs => if listCharLE kv.1 x.1 then kv :: x :: xs else x :: insertByKey kv xs

/-- Insertion sort by key, modelling the key sort in `url.Values.Encode`. -/
def sortByKey : List (List Char × List Char) → List (List Char × List Char)
  | [] => []
  | x :: xs => insertByKey x (sortByKey xs)

/-- `url.Values.Encode`, restricted: sort by key, join `key=value` pairs with
`&`; no percent-encoding. -/
def encodeQuery (params : List (List Char × List Char)) : List Char :=
  List.intercalate ['&'] ((sortByKey params).map (fun kv => kv.1 ++ '=' :: kv.2))

/-- `net/url.URL.String()`, restricted to the fields modelled here:
`scheme://user@host/path?query`. -/
def goURLString (u : GoURL) : List Char :=
  (if u.scheme ≠ [] then u.scheme ++ [':', '/', '/'] else []) ++
    (match u.user with | none => [] | some us => us ++ ['@']) ++
    u.host ++ u.path ++
    (if u.rawQuery ≠ [] then '?' :: u.rawQuery else [])

/-- `fmt.Sprint` of a `[]*Addr`: the elements' `String()` forms, space
separated, in brackets. -/
def fmtAddrList (h : Heap) (ptrs : List ℕ) : List Char :=
  '[' :: List.intercalate [' '] (ptrs.map (fun p => (h.addrs p).display)) ++ [']']

/-- `(*gateway).String()`: copy the forward URL, null its userinfo, delete
the `u` and `p` query parameters, re-encode the query, and print
`listen-addrs -> url`. -/
def gatewayString (h : Heap) (g : Gateway) : List Char :=
  let u0 := h.urls g.cfg.forward
  let params := (parseQuery u0.rawQuery).filter
    (fun kv => ¬(kv.1 = "u".data ∨ kv.1 = "p".data))
  let u2 : GoURL := { u0 with user := none, rawQuery := encodeQuery params }
  fmtAddrList h g.cfg.listen ++ '-' :: '>' :: goURLString u2

/-- The heap for the C5 counterexample: one URL object (with credentials in
userinfo and query) and one Addr object; the config points at index 0. -/
def c5Heap : Heap :=
  { urls := fun _ =>
      { scheme := "https".data
        user := some "user:pw".data
        host := "h1.example:8086".data
        path := "/write".data
        rawQuery := "db=foo&p=x&u=me".data }
    addrs := fun _ => ⟨udpL, "127.0.0.1:8089".data⟩ }

/-- `c5Heap` after mutating the URL object in place (changing its host), as
Go code holding the same `*url.URL` can do after `newGateway` returns. -/
def c5HeapMutated : Heap :=
  { c5Heap with urls := fun _ =>
      { scheme := "https".data
        user := some "user:pw".data
        host := "evil.example:9999".data
        path := "/write".data
        rawQuery := "db=foo&p=x&u=me".data } }

/-- The config used in the C5 counterexample (defaults of `NewPortConfig`). -/
def c5Cfg : PortConfig :=
  { listen := [0]
    forward := 0
    flushInterval := 5 * 1000000000
    flushSizeBytes := 16000
    writeTimeout := 15 * 1000000000
    readTimeout := 10 * 1000000000
    maxRetries := 10
    backoffCfg := DefaultBackoff }

/-- C5, counterexample: `newGateway` copies only the struct, so mutating the
`url.URL` object that `cfg.Forward` points to — data reachable through the
config — changes the running gateway's display string, refuting the claim
that any such mutation leaves the display unchanged. -/
theorem c5_shallow_copy_counterexample :
    gatewayString c5Heap (newGateway c5Cfg) ≠
      gatewayString c5HeapMutated (newGateway c5Cfg) := by decide

/-- C5, amended: the copy in `newGateway` is shallow.  The gateway keeps the
struct value it was given (so rebinding or reassigning the caller's
`PortConfig` fields later cannot affect it), and its display string depends
only on that stored struct together with the objects its `Forward` and
`Listen` pointers reach: two heaps that agree on those objects give the same
display.  Mutating those shared objects, however, does change the display
(see the counterexample). -/
theorem c5_shallow_copy_amended (cfg : PortConfig) (h h2 : Heap)
    (hurl : h2.urls cfg.forward = h.urls cfg.forward)
    (haddr : ∀ p ∈ cfg.listen, h2.addrs p = h.addrs p) :
    (newGateway cfg).cfg = cfg ∧
      gatewayString h2 (newGateway cfg) = gatewayString h (newGateway cfg) := by
  refine ⟨rfl, ?_⟩
  unfold gatewayString newGateway newGatewayCfg
  simp only
  rw [hurl]
  have : fmtAddrList h2 cfg.listen = fmtAddrList h cfg.listen := by
    unfold fmtAddrList
    have := List.map_congr_left (l := cfg.listen)
      (f := fun p => (h2.addrs p).display) (g := fun p => (h.addrs p).display)
      (fun p hp => by simp only [haddr p hp])
    rw [this]
  rw [this]

/-- Witness for `c5_shallow_copy_amended` at the counterexample config with
two identical heaps. -/
theorem c5_shallow_copy_amended_witness :
    c5Heap.urls c5Cfg.forward = c5Heap.urls c5Cfg.forward ∧
      (∀ p ∈ c5Cfg.listen, c5Heap.addrs p = c5Heap.addrs p) ∧
      ((newGateway c5Cfg).cfg = c5Cfg ∧
        gatewayString c5Heap (newGateway c5Cfg) =
          gatewayString c5Heap (newGateway c5Cfg)) :=
  ⟨rfl, fun p _ => rfl,
    c5_shallow_copy_amended c5Cfg c5Heap c5Heap rfl (fun p _ => rfl)⟩

/-! ## Claim C9: buffer zeroing in the porthole read loop

The inner loop of `(*porthole).listen` is embedded as a function over a trace
of read outcomes.  Each `ReadEvent` is one return of `conn.ReadFromUDP` into
the shared receive buffer: the datagram bytes written (`data`), the error
classification, and — when the read succeeded — whether the following
`proxy.Write` succeeded.  Buffer bytes are modelled as `ℤ`. -/

/-- Classification of one read's error, following the source's dispatch:
the `context.Canceled` / `context.DeadlineExceeded` identity checks, then the
`net.Error` type switch with its `Temporary()` split, then the default. -/
inductive ReadErr where
  | ok
  | canceled
  | deadlineExceeded
  | netTemp
  | netPerm
  | otherErr
  deriving DecidableEq

/-- One iteration's worth of outside world: the datagram bytes the read wrote
into the buffer prefix, its error, and the result of `proxy.Write`. -/
structure ReadEvent where
  data : List ℤ
  err : ReadErr
  writeOk : Bool
  deriving DecidableEq

/-- How the read loop exited.  `blocked` is a modelling artifact for a trace
that ends while the loop would keep reading (the connection never returns
again); the theorems below never reach it. -/
inductive ListenExit where
  | canceled
  | deadline
  | permErr
  | otherErr
  | writeFail
  | blocked
  deriving DecidableEq

/-- A read writing `data` into the buffer prefix (the buffer keeps its
length; a datagram never exceeds it in the source, where the buffer is the
fixed 65507-byte array). -/
def writeBuf (data buf : List ℤ) : List ℤ :=
  data.take buf.length ++ buf.drop data.length

/-- `memclr(block)` for `block := buf[:n]`: zero the first `n` bytes. -/
def memclr (n : ℕ) (buf : List ℤ) : List ℤ :=
  (buf.take n).map (fun _ => 0) ++ buf.drop n

/-- The inner read loop of `(*porthole).listen` over a trace of read events,
returning how it exited and the buffer's final contents:
cancellation/deadline exits return at once without clearing ("Don't clear
buffer or we have a possible race condition"); `net.Error`s clear the
datagram and either continue (temporary) or return; other errors clear and
return; a successful read hands the datagram to `proxy.Write` and — only if
that write succeeds — clears and continues; a failed write returns without
clearing. -/
def listenReadLoop : List ReadEvent → List ℤ → ListenExit × List ℤ
  | [], buf => (.blocked, buf)
  | e :: rest, buf =>
    let buf1 := writeBuf e.data buf
    let n := e.data.length
    match e.err with
    | .canceled => (.canceled, buf1)
    | .deadlineExceeded => (.deadline, buf1)
    | .netTemp => listenReadLoop rest (memclr n buf1)
    | .netPerm => (.permErr, memclr n buf1)
    | .otherErr => (.otherErr, memclr n buf1)
    | .ok => if e.writeOk then listenReadLoop rest (memclr n buf1)
             else (.writeFail, buf1)

/-- Every byte of the buffer is zero. -/
def isZeroBuf (l : List ℤ) : Prop := ∀ x ∈ l, x = 0

/-- C9, counterexample: a successful 1-byte read whose `proxy.Write` fails
exits the loop with the datagram byte still in the buffer — the source
returns the write error before the `memclr(block)` that follows a successful
write, so the proxy-write-failure exit path named by the claim does not zero
the just-received bytes. -/
theorem c9_zeroing_counterexample :
    listenReadLoop [⟨[7], ReadErr.ok, false⟩] (List.replicate 3 0) =
        (ListenExit.writeFail, [7, 0, 0]) ∧
      ¬ isZeroBuf (listenReadLoop [⟨[7], ReadErr.ok, false⟩]
          (List.replicate 3 0)).2 := by
  constructor
  · decide
  · intro hz
    exact absurd (hz 7 (by decide)) (by decide)

theorem isZeroBuf_memclr_writeBuf (data buf : List ℤ) (h : isZeroBuf buf) :
    isZeroBuf (memclr data.length (writeBuf data buf)) := by
  intro x hx
  unfold memclr at hx
  rcases List.mem_append.mp hx with hx | hx
  · obtain ⟨y, -, hy⟩ := List.mem_map.mp hx
    exact hy.symm
  · -- x comes from the bytes past the cleared prefix, which are old buffer
    -- bytes (or nothing, when the datagram ran past the end of the buffer).
    rcases le_or_lt data.length buf.length with hle | hlt
    · have hlen : (data.take buf.length).length = data.length := by
        simp [List.length_take]
        omega
      have hdrop : (writeBuf data buf).drop data.length = buf.drop data.length := by
        unfold writeBuf
        rw [← hlen, List.drop_left]
      rw [hdrop] at hx
      exact h x (List.mem_of_mem_drop hx)
    · have hnil : (writeBuf data buf).drop data.length = [] := by
        apply List.drop_eq_nil_of_le
        unfold writeBuf
        simp [List.length_take, List.length_drop]
        omega
      rw [hnil] at hx
      exact absurd hx (List.not_mem_nil x)

/-- C9, amended: the buffer-zeroing invariant holds on the temporary-error,
non-temporary-error and default-error paths and after successful proxy
writes: starting from an all-zero buffer, any trace free of
cancellation/deadline exits and of proxy-write failures leaves the buffer
all-zero — but the cancellation exits (deliberately, see the source comment)
and the proxy-write-failure exit skip the zeroing. -/
theorem c9_zeroing_amended (events : List ReadEvent) (buf : List ℤ)
    (hbuf : isZeroBuf buf)
    (hclean : ∀ e ∈ events, e.err ≠ ReadErr.canceled ∧
      e.err ≠ ReadErr.deadlineExceeded ∧ (e.err = ReadErr.ok → e.writeOk = true)) :
    isZeroBuf (listenReadLoop events buf).2 := by
  induction events generalizing buf with
  | nil => exact hbuf
  | cons e rest ih =>
    obtain ⟨hc, hd, hw⟩ := hclean e (List.mem_cons_self e rest)
    have hrest : ∀ e2 ∈ rest, e2.err ≠ ReadErr.canceled ∧
        e2.err ≠ ReadErr.deadlineExceeded ∧
        (e2.err = ReadErr.ok → e2.writeOk = true) :=
      fun e2 he2 => hclean e2 (List.mem_cons_of_mem e he2)
    unfold listenReadLoop
    cases herr : e.err with
    | canceled => exact absurd herr hc
    | deadlineExceeded => exact absurd herr hd
    | netTemp => exact ih _ (isZeroBuf_memclr_writeBuf e.data buf hbuf) hrest
    | netPerm => exact isZeroBuf_memclr_writeBuf e.data buf hbuf
    | otherErr => exact isZeroBuf_memclr_writeBuf e.data buf hbuf
    | ok =>
      rw [hw herr]
      exact ih _ (isZeroBuf_memclr_writeBuf e.data buf hbuf) hrest

/-- Witness for `c9_zeroing_amended`: a successful write followed by a
temporary error and a permanent error, on a 3-byte zero buffer. -/
theorem c9_zeroing_amended_witness :
    isZeroBuf (List.replicate 3 0) ∧
      (∀ e ∈ [(⟨[5], ReadErr.ok, true⟩ : ReadEvent), ⟨[6, 6], ReadErr.netTemp, true⟩,
          ⟨[], ReadErr.netPerm, false⟩],
        e.err ≠ ReadErr.canceled ∧ e.err ≠ ReadErr.deadlineExceeded ∧
          (e.err = ReadErr.ok → e.writeOk = true)) ∧
      isZeroBuf (listenReadLoop [⟨[5], ReadErr.ok, true⟩,
        ⟨[6, 6], ReadErr.netTemp, true⟩, ⟨[], ReadErr.netPerm, false⟩]
        (List.replicate 3 0)).2 :=
  ⟨fun x hx => List.eq_of_mem_replicate hx, by decide,
    c9_zeroing_amended _ _ (fun x hx => List.eq_of_mem_replicate hx) (by decide)⟩

/-! ## Claim C3: the porthole rebind loop and listener-creation errors -/

/-- The result of one `p.listen(ctx)` call, as classified by
`(*porthole).Listen`: a clean return (`nil`, `context.Canceled`,
`context.DeadlineExceeded`), a `*net.OpError` with its `Op` string, or any
other error. -/
inductive LisRes where
  | ok
  | canceled
  | deadline
  | opErr (op : List Char)
  | other
  deriving DecidableEq

/-- One iteration of the rebind loop from the outside: the inner `listen`
result, whether the bind survived more than a minute
(`time.Since(t) > time.Minute`), and whether the context fired during the
backoff wait (`case <-ctx.Done()`). -/
structure BindRound where
  res : LisRes
  longLived : Bool
  ctxDone : Bool
  deriving DecidableEq

/-- How `(*porthole).Listen` returned. -/
inductive ListenOut where
  | clean (r : LisRes)
  | failed (r : LisRes)
  | ctxCanceled
  deriving DecidableEq

/-- `err == context.Canceled || err == context.DeadlineExceeded || err == nil`. -/
def isCleanRes : LisRes → Bool
  | .ok => true
  | .canceled => true
  | .deadline => true
  | _ => false

/-- `oe, ok := err.(*net.OpError); ok && oe.Op == "listen"`. -/
def isListenOp : LisRes → Bool
  | .opErr op => op = "listen".data
  | _ => false

/-- The `for i := 1; i <= retries; i++` loop of `(*porthole).Listen` over a
trace of bind rounds, also counting the bind attempts made.  Clean results
return immediately.  For a listener-creation error (`Op == "listen"`) the
source only logs "will not retry" — there is no `return`, and the
`i == retries` early return sits in the `else` branch — so control falls
through to the wait and the next attempt regardless.  A long-lived bind
resets `i` to 1 before the wait; waiting may be cut short by cancellation.
An exhausted trace (the inner listen never returning again) is reported as
`failed` with the last error, a case the theorems below never reach. -/
def listenOuter (retries : ℕ) : ℤ → LisRes → ℕ → List BindRound → ListenOut × ℕ
  | i, prev, count, rounds =>
    if (retries : ℤ) < i then (.failed prev, count)
    else
      match rounds with
      | [] => (.failed prev, count)
      | r :: rest =>
        if isCleanRes r.res then (.clean r.res, count + 1)
        else if ¬ isListenOp r.res ∧ i = (retries : ℤ) then (.failed r.res, count + 1)
        else
          let i1 := if r.longLived then 1 else i
          if r.ctxDone then (.ctxCanceled, count + 1)
          else listenOuter retries (i1 + 1) r.res (count + 1) rest

/-- C3, code bug: with every bind attempt failing with a `net.OpError` whose
`Op` is `"listen"`, the porthole performs all 10 bind attempts (sleeping
between each) before giving up — it does not stop after reporting the first
listener-creation error, contradicting the "will not retry" it logs and the
claim. -/
theorem c3_listen_error_retried :
    listenOuter 10 1 LisRes.ok 0
        (List.replicate 10 ⟨LisRes.opErr "listen".data, false, false⟩) =
      (ListenOut.failed (LisRes.opErr "listen".data), 10) ∧ (10 : ℕ) ≠ 1 := by
  exact ⟨by decide, by decide⟩

/-! ## Claim C4: the shutdown grace delay

The timing of the supervisor's shutdown wiring is embedded as the set of
instants (nanoseconds) at which `cancel` runs in the scenario the claim
describes: a single SIGINT at time `t` and no prior gateway failure. -/

/-- One second, in nanoseconds (`time.Second`). -/
def oneSecondNs : ℤ := 1000000000

/-- `Signal.DelayFunc(d, fn)` spawns `go func() { s.Wait(); time.Sleep(d);
fn() }()`: with the signal firing at `tSignal`, `fn` runs at `tSignal + d`. -/
def delayFuncFireTime (tSignal d : ℤ) : ℤ := tSignal + d

/-- The body of `main`'s signal-handler goroutine,
`for sig := range signals { …; die(); cancel() }`: on a SIGINT at `tSignal`
it raises the shutdown signal and calls `cancel()` immediately, at
`tSignal` itself. -/
def sigHandlerCancelTime (tSignal : ℤ) : ℤ := tSignal

/-- The instants at which `cancel` is invoked after a single SIGINT at `t`
(no gateway having failed first): the handler's own immediate `cancel()`,
and the canceller that `SHUTDOWN.DelayFunc(time.Second, cancel)` armed at
startup, which fires one second after the shutdown signal. -/
def mainCancelTimes (t : ℤ) : List ℤ :=
  [sigHandlerCancelTime t, delayFuncFireTime t oneSecondNs]

/-- C4, counterexample: with SIGINT at time 0, `cancel` runs at time 0 — the
signal handler calls `cancel()` directly after `die()` — which is earlier
than 1 second after the shutdown trigger, refuting the claim that the
cancellation scope is never cancelled before the grace delay elapses. -/
theorem c4_grace_counterexample :
    sigHandlerCancelTime 0 ∈ mainCancelTimes 0 ∧
      sigHandlerCancelTime 0 < 0 + oneSecondNs := by
  exact ⟨by decide, by decide⟩

/-- C4, amended: after a SIGINT-triggered shutdown at time `t`, every
invocation of `cancel` happens within `[t, t + 1s]`: the delayed canceller
armed by `SHUTDOWN.DelayFunc(time.Second, cancel)` fires exactly 1 second
after the trigger — an upper bound on how late cancellation can start — but
the signal handler also cancels immediately at the trigger, so the 1-second
grace is not a lower bound. -/
theorem c4_grace_amended (t c : ℤ) (hc : c ∈ mainCancelTimes t) :
    t ≤ c ∧ c ≤ t + oneSecondNs := by
  simp only [mainCancelTimes, sigHandlerCancelTime, delayFuncFireTime,
    List.mem_cons, List.not_mem_nil, or_false] at hc
  rcases hc with hc | hc <;> subst hc <;> exact ⟨by simp [oneSecondNs], by simp [oneSecondNs]⟩

/-- Witness for `c4_grace_amended` at `t = 0`, `c = 0`. -/
theorem c4_grace_amended_witness :
    (0 : ℤ) ∈ mainCancelTimes 0 ∧ ((0 : ℤ) ≤ 0 ∧ (0 : ℤ) ≤ 0 + oneSecondNs) :=
  ⟨by decide, c4_grace_amended 0 0 (by decide)⟩

end Janus
